import Mathlib

/-!
Verification of the Internal-Engine specification against a shallow
embedding of the source (MemoryEngine.cpp, DetoursLite.cpp).

Modelling conventions:
* `uintptr_t` / `size_t` are `Nat` with explicit reduction mod `2 ^ 64`
  wherever the C arithmetic can wrap (`subMod`).
* The Windows memory-management API consumed by the engine is an abstract
  snapshot `MemOS`: `virtualQuery` models `VirtualQuery` (`none` = the call
  returned 0), `content` gives the byte stored at each address, and
  `copyFault a n` models an access violation raised while `memcpy` touches
  `[a, a + n)` (the TOCTOU window the spec documents); the SEH guard of the
  source turns such a fault into a failure return, which the embedding
  expresses by a total function.
* Byte buffers are `List Nat`; `memcpy` into process memory is the
  pointwise overwrite `writeMem`.
-/

/-- 2^64, the modulus of `uintptr_t` / `size_t` arithmetic. -/
def U64 : Nat := 2 ^ 64

/-- Truncated subtraction as computed on a `m`-modular machine word:
`(a - b) mod m`. -/
def subMod (m a b : Nat) : Nat := (a % m + (m - b % m)) % m

/-- `MEM_COMMIT` state constant. -/
def MEM_COMMIT : Nat := 0x1000

/-- `PAGE_READONLY`. -/
def PAGE_READONLY : Nat := 0x02

/-- `PAGE_READWRITE`. -/
def PAGE_READWRITE : Nat := 0x04

/-- `PAGE_WRITECOPY`. -/
def PAGE_WRITECOPY : Nat := 0x08

/-- `PAGE_EXECUTE_READ`. -/
def PAGE_EXECUTE_READ : Nat := 0x20

/-- `PAGE_EXECUTE_READWRITE`. -/
def PAGE_EXECUTE_READWRITE : Nat := 0x40

/-- `PAGE_EXECUTE_WRITECOPY`. -/
def PAGE_EXECUTE_WRITECOPY : Nat := 0x80

/-- The readable-protection mask tested by `IsAddressReadable`
(MemoryEngine.cpp lines 42-43). -/
def readableMask : Nat :=
  PAGE_READONLY ||| PAGE_READWRITE ||| PAGE_EXECUTE_READ |||
  PAGE_EXECUTE_READWRITE ||| PAGE_WRITECOPY ||| PAGE_EXECUTE_WRITECOPY

/-- `MEMORY_BASIC_INFORMATION`, restricted to the fields the engine reads. -/
structure MBI where
  baseAddress : Nat
  regionSize : Nat
  state : Nat
  protect : Nat

/-- Abstract snapshot of the host OS memory map seen by `MemoryEngine`. -/
structure MemOS where
  /-- `VirtualQuery(address)`; `none` models a zero return. -/
  virtualQuery : Nat → Option MBI
  /-- Byte currently stored at each address. -/
  content : Nat → Nat
  /-- `copyFault a n` holds when the guarded `memcpy` over `[a, a+n)`
  raises an access violation (e.g. the protection changed between the
  check and the copy). -/
  copyFault : Nat → Nat → Bool

/-- `MemoryEngine::IsAddressValid` (MemoryEngine.cpp lines 15-33):
reject the null address, require a successful query, a committed region,
and `address + size - 1 <= base + regionSize - 1` (both ends computed on
`size_t`, so they wrap mod 2^64 exactly as in the source). -/
def IsAddressValid (os : MemOS) (address size : Nat) : Bool :=
  if address = 0 then false
  else
    match os.virtualQuery address with
    | none => false
    | some mbi =>
      if mbi.state ≠ MEM_COMMIT then false
      else
        let endAddress := subMod U64 (address + size) 1
        let regionEnd := subMod U64 (mbi.baseAddress + mbi.regionSize) 1
        decide (endAddress ≤ regionEnd)

/-- `MemoryEngine::IsAddressReadable` (lines 35-44): `IsAddressValid`
plus a readable bit in the region protection.  The source issues a second
`VirtualQuery` whose result is the same in a fixed snapshot; the `none`
branch is unreachable once `IsAddressValid` passed. -/
def IsAddressReadable (os : MemOS) (address size : Nat) : Bool :=
  if ¬ IsAddressValid os address size then false
  else
    match os.virtualQuery address with
    | none => false
    | some mbi => decide (mbi.protect &&& readableMask ≠ 0)

/-- `MemoryEngine::SafeReadBytes` (lines 68-83): fail-closed on the
readability gate, then perform the copy under the SEH guard
(`SafeMemcpy`, lines 58-66); a fault clears the buffer. -/
def SafeReadBytes (os : MemOS) (address size : Nat) : List Nat :=
  if ¬ IsAddressReadable os address size then []
  else if os.copyFault address size then []
  else (List.range size).map (fun i => os.content (address + i))

/-- `MemoryEngine::SafeRead<uintptr_t>` (MemoryEngine.hpp lines 72-86) on
a 64-bit build: gate on readability of 8 bytes, guarded copy, and the
`memcpy` into a `uintptr_t` is a little-endian decode. -/
def SafeReadPtr (os : MemOS) (address : Nat) : Option Nat :=
  if ¬ IsAddressReadable os address 8 then none
  else if os.copyFault address 8 then none
  else some ((List.range 8).foldr
    (fun i acc => acc * 256 + os.content (address + i) % 256) 0)

/-- Concrete snapshot used by witnesses: one committed readable region
`[0x1000, 0x2000)` holding byte `i mod 256` at `0x1000 + i`, and a copy
fault on any access spanning `0x1800`. -/
def osW : MemOS where
  virtualQuery a :=
    if 0x1000 ≤ a ∧ a < 0x2000 then
      some ⟨0x1000, 0x1000, MEM_COMMIT, PAGE_READONLY⟩
    else some ⟨0, 0x1000, 0, 0⟩
  content a := (a - 0x1000) % 256
  copyFault a n := decide (a ≤ 0x1800 ∧ 0x1800 < a + n)

/-!
Write path (MemoryEngine.cpp lines 86-108).  `SafeWriteMemory` runs under
one SEH guard: it unconditionally calls `VirtualProtect(addr, n, RWX)`,
copies, then calls `VirtualProtect` back to the saved protection and
returns `true` WITHOUT checking the restore's result.  The protection of
the target region is tracked in `WState.prot`; success of the two
`VirtualProtect` calls and a fault in the copy are supplied by the
environment.
-/

/-- State touched by the write path: current protection of the target
region and the byte contents. -/
structure WState where
  prot : Nat
  mem : Nat → Nat

/-- Overwrite `bytes.length` bytes starting at `addr` (a `memcpy` whose
source buffer is disjoint from process memory). -/
def writeMem (mem : Nat → Nat) (addr : Nat) (bytes : List Nat) : Nat → Nat :=
  fun a => if addr ≤ a ∧ a < addr + bytes.length then bytes.getD (a - addr) 0 else mem a

/-- Environment of one `SafeWriteBytes` call: the region snapshot used by
the `IsAddressValid` gate, whether each of the two `VirtualProtect` calls
succeeds, and whether the guarded `memcpy` faults. -/
structure WEnv where
  os : MemOS
  vpToggleOk : Bool
  vpRestoreOk : Bool
  writeFault : Bool

/-- `SafeWriteMemory` (lines 86-100).  Branches, in source order: the
initial `VirtualProtect` to RWX fails -> `false` with the state
untouched; the `memcpy` faults -> the SEH handler returns `false` with
the protection left at RWX; otherwise the copy lands, the restoring
`VirtualProtect` is issued with its result ignored -> `true`, the
protection being the saved one only if that call succeeded. -/
def SafeWriteMemory (env : WEnv) (s : WState) (address : Nat) (data : List Nat) :
    Bool × WState :=
  if env.vpToggleOk = false then (false, s)
  else if env.writeFault then (false, { s with prot := PAGE_EXECUTE_READWRITE })
  else if env.vpRestoreOk then
    (true, { prot := s.prot, mem := writeMem s.mem address data })
  else (true, { prot := PAGE_EXECUTE_READWRITE, mem := writeMem s.mem address data })

/-- `MemoryEngine::SafeWriteBytes` (lines 102-108): reject empty payloads
and invalid targets, then delegate to `SafeWriteMemory`. -/
def SafeWriteBytes (env : WEnv) (s : WState) (address : Nat) (bytes : List Nat) :
    Bool × WState :=
  if bytes.isEmpty ∨ ¬ IsAddressValid env.os address bytes.length then (false, s)
  else SafeWriteMemory env s address bytes

/-- Environment for the C2 counterexample: the target is valid, the
toggle to RWX succeeds, the copy does not fault, but the restoring
`VirtualProtect` fails. -/
def envC2 : WEnv where
  os := osW
  vpToggleOk := true
  vpRestoreOk := false
  writeFault := false

/-- Initial state for the C2 counterexample: a read-only target. -/
def sC2 : WState where
  prot := PAGE_READONLY
  mem := fun _ => 0

/-!
Length disassembler (DetoursLite.cpp lines 357-485).  The byte stream is
a `List Nat`; reads past the end of the list are `getD _ 0`, which is
only exercised by malformed streams (the C code would read whatever
memory follows the buffer there).  The source's prefix loop scans an
unbounded pointer; the recursion below consumes the list instead, so on
an all-prefix stream (on which the C loop would run off the buffer) it
stops at the end of the supplied bytes.
-/

/-- `LengthDisassembler::IsPrefix` (lines 374-394). -/
def isPrefixByte (b : Nat) : Bool :=
  if b = 0x26 ∨ b = 0x2E ∨ b = 0x36 ∨ b = 0x3E ∨ b = 0x64 ∨ b = 0x65 then true
  else if b = 0x66 then true
  else if b = 0x67 then true
  else if b = 0xF0 ∨ b = 0xF2 ∨ b = 0xF3 then true
  else if b &&& 0xF0 = 0x40 then true
  else false

/-- `LengthDisassembler::IsRexPrefix` (lines 396-398). -/
def isRexPrefixByte (b : Nat) : Bool := b &&& 0xF0 = 0x40

/-- `LengthDisassembler::GetModRMSize` (lines 461-485); the `hasRex`
parameter is accepted and ignored exactly as in the source. -/
def getModRMSize (modRM : Nat) (_hasRex : Bool) : Nat :=
  let md := (modRM >>> 6) &&& 0x03
  let rm := modRM &&& 0x07
  if md = 0x00 then
    if rm = 0x05 then 4 else if rm = 0x04 then 1 else 0
  else if md = 0x01 then
    if rm = 0x04 then 2 else 1
  else if md = 0x02 then
    if rm = 0x04 then 5 else 4
  else 0

/-- The opcode byte selected by `GetOpcodeSize` (DetoursLite.cpp lines
401-413): `data[1]` after a `0F` escape, else `data[0]`. -/
def opcodeByte (data : List Nat) : Nat :=
  if data.getD 0 0 = 0x0F then data.getD 1 0 else data.getD 0 0

/-- The running `size` after the escape handling of `GetOpcodeSize`
(lines 402-413): 3 for `0F 38`/`0F 3A`, 2 for other `0F xx`, 1 else. -/
def opcodeBytesLen (data : List Nat) : Nat :=
  if data.getD 0 0 = 0x0F then
    if data.getD 1 0 = 0x38 ∨ data.getD 1 0 = 0x3A then 3 else 2
  else 1

/-- The ModRM-group membership test of `GetOpcodeSize` (lines 432-441). -/
def opcodeHasModRM (opcode : Nat) : Bool :=
  (opcode &&& 0xFC) = 0x80 ∨ (opcode &&& 0xFE) = 0x88 ∨
  (opcode &&& 0xFC) = 0x8C ∨ (opcode &&& 0xFE) = 0xC6 ∨
  (opcode &&& 0xFC) = 0xD0 ∨ (opcode &&& 0xFE) = 0xF6 ∨
  (opcode &&& 0xFE) = 0xFE

/-- `LengthDisassembler::GetOpcodeSize` (lines 400-459): two/three-byte
escapes, the no-ModRM one-byte tables, `E8`/`E9`/`EB` immediates, the
ModRM groups, and the group-1 / MOV-imm trailing immediate selected by
bit 0 of the opcode.  Every branch yields at least 1; there is no branch
returning 0. -/
def getOpcodeSize (data : List Nat) (hasRex : Bool) : Nat :=
  if (0x50 ≤ opcodeByte data ∧ opcodeByte data ≤ 0x5F) ∨
      (0x90 ≤ opcodeByte data ∧ opcodeByte data ≤ 0x97) ∨
      (0xA0 ≤ opcodeByte data ∧ opcodeByte data ≤ 0xA3) then opcodeBytesLen data
  else if opcodeByte data = 0xE8 ∨ opcodeByte data = 0xE9 then opcodeBytesLen data + 4
  else if opcodeByte data = 0xEB then opcodeBytesLen data + 1
  else if opcodeHasModRM (opcodeByte data) then
    if (opcodeByte data &&& 0xFC) = 0x80 ∨ (opcodeByte data &&& 0xFE) = 0xC6 then
      if opcodeByte data &&& 1 = 0 then
        opcodeBytesLen data + 1 +
          getModRMSize (data.getD (opcodeBytesLen data) 0) hasRex + 1
      else
        opcodeBytesLen data + 1 +
          getModRMSize (data.getD (opcodeBytesLen data) 0) hasRex + 4
    else
      opcodeBytesLen data + 1 + getModRMSize (data.getD (opcodeBytesLen data) 0) hasRex
  else opcodeBytesLen data

/-- The prefix-skipping loop of `LengthDisassembler::GetLength`
(lines 357-372), carrying the running `offset` and the REX flag. -/
def getLengthAux : List Nat → Nat → Bool → Nat
  | [], offset, hasRex => offset + getOpcodeSize [] hasRex
  | b :: rest, offset, hasRex =>
    if isPrefixByte b then getLengthAux rest (offset + 1) (hasRex || isRexPrefixByte b)
    else offset + getOpcodeSize (b :: rest) hasRex

/-- `LengthDisassembler::GetLength`. -/
def getLength (data : List Nat) : Nat := getLengthAux data 0 false

/-- A 15-byte window of process memory starting at `addr` (15 bytes bound
any x86 instruction the tables above can size). -/
def memWindow (mem : Nat → Nat) (addr : Nat) : List Nat :=
  (List.range 15).map (fun i => mem (addr + i))

/-- The `bytesToCopy` loop of `DetoursLite::InstallHook` (lines 48-56):
accumulate instruction lengths at the target until at least `hookSize`
bytes are covered, failing (`none`) if any instruction length is 0.  The
fuel is the loop's own bound: each surviving iteration adds at least one
byte, so `hookSize` steps always suffice. -/
def cbcGo (mem : Nat → Nat) (target hookSize : Nat) : Nat → Nat → Option Nat
  | 0, acc => if hookSize ≤ acc then some acc else none
  | fuel + 1, acc =>
    if hookSize ≤ acc then some acc
    else if getLength (memWindow mem (target + acc)) = 0 then none
    else cbcGo mem target hookSize fuel (acc + getLength (memWindow mem (target + acc)))

/-- Total bytes the installer must copy for a hook of `hookSize` bytes. -/
def computeBytesToCopy (mem : Nat → Nat) (target hookSize : Nat) : Option Nat :=
  cbcGo mem target hookSize hookSize 0

/-!
Detour engine (DetoursLite.cpp lines 26-354).  Process memory is a byte
map `Nat → Nat`; the hook registry is the `trampolines` vector; the
executable allocator (`VirtualAlloc` in `CreateTrampoline`) is an
environment sequence indexed by an allocation counter, 0 modelling an
allocation failure; `VirtualFree` removes from the `allocated` list.
`SetMemoryProtection` success is the environment flag `vpOk` (the source
ignores the result of every restoring call, and the engine's
`EnableHook` performs no protection call at all).
-/

/-- `DetoursLite::HookType` (DetoursLite.hpp lines 21-26). -/
inductive HookType where
  | JMP_RELATIVE
  | JMP_ABSOLUTE
  | PUSH_RET
  | AUTO
deriving DecidableEq

/-- The `AUTO` resolution of `InstallHook` (lines 37-43). -/
def resolveHookType (is64 : Bool) : HookType → HookType
  | .AUTO => if is64 then .JMP_ABSOLUTE else .JMP_RELATIVE
  | t => t

/-- `DetoursLite::CalculateHookSize` (lines 230-241). -/
def CalculateHookSize (is64 : Bool) : HookType → Nat
  | .JMP_RELATIVE => 5
  | .JMP_ABSOLUTE => if is64 then 14 else 6
  | .PUSH_RET => if is64 then 14 else 6
  | .AUTO => 5

/-- `DetoursLite::Trampoline` (DetoursLite.hpp lines 12-18). -/
structure Tramp where
  originalFunction : Nat
  trampolineAddress : Nat
  originalSize : Nat
  originalBytes : List Nat
  isActive : Bool
deriving DecidableEq

/-- Engine state: process memory, the `trampolines` registry, the set of
live trampoline allocations, and the allocator counter. -/
structure DState where
  mem : Nat → Nat
  trampolines : List Tramp
  allocated : List Nat
  allocCount : Nat

/-- Environment of the detour engine: target bitness, the executable
allocator (`allocSeq n` is the address returned by the `n`-th
`VirtualAlloc`, 0 on failure), protection-change success, and the
address of the stack local whose address the 32-bit `WriteJumpAbsolute`
embeds. -/
structure DEnv where
  is64 : Bool
  allocSeq : Nat → Nat
  vpOk : Bool
  stackSlot : Nat

/-- `DetoursLite::IsHooked` (lines 201-209). -/
def IsHookedB (l : List Tramp) (address : Nat) : Bool :=
  l.any (fun t => t.originalFunction == address)

/-- Little-endian byte image of `v` on `n` bytes (`memcpy` of an
integral value into a byte buffer on x86). -/
def leBytes (n v : Nat) : List Nat :=
  (List.range n).map (fun i => v / 256 ^ i % 256)

/-- The byte block `[addr, addr+n)` of process memory. -/
def readMemList (mem : Nat → Nat) (addr n : Nat) : List Nat :=
  (List.range n).map (fun i => mem (addr + i))

/-- Little-endian signed `int32_t` read at `addr` (the `*offset`
dereference in `RelocateInstruction`). -/
def readI32 (mem : Nat → Nat) (addr : Nat) : Int :=
  let v : Nat := mem addr % 256 + mem (addr + 1) % 256 * 256 +
    mem (addr + 2) % 256 * 256 ^ 2 + mem (addr + 3) % 256 * 256 ^ 3
  if v < 2 ^ 31 then (v : Int) else (v : Int) - 2 ^ 32

/-- `uintptr_t + int32_t` with the C sign-extending conversion, mod 2^64. -/
def addOffset (base : Nat) (off : Int) : Nat :=
  (((base : Int) + off).emod ((U64 : Nat) : Int)).toNat

/-- `DetoursLite::CalculateRelativeOffset` (lines 346-348):
`(int32_t)(to - from)`, kept as its raw 32-bit image; the `uintptr_t`
difference mod 2^64 truncated to 32 bits equals the difference mod 2^32. -/
def relOffset32 (fromA toA : Nat) : Nat := subMod (2 ^ 32) toA fromA

/-- `DetoursLite::WriteJumpRelative` (lines 243-252): `E9` plus the
little-endian rel32 to `to` from the end of the 5-byte jump. -/
def writeJumpRelative (mem : Nat → Nat) (fromA toA : Nat) : Nat → Nat :=
  writeMem mem fromA (0xE9 :: leBytes 4 (relOffset32 (fromA + 5) toA))

/-- `DetoursLite::WriteJumpAbsolute` (lines 254-276).  The 32-bit arm
embeds the address of the stack local `to` (`&to`, an accepted defect
the spec notes), supplied here by the environment. -/
def writeJumpAbsolute (is64 : Bool) (stackSlot : Nat) (mem : Nat → Nat)
    (fromA toA : Nat) : Nat → Nat :=
  if is64 then writeMem mem fromA ([0xFF, 0x25, 0, 0, 0, 0] ++ leBytes 8 toA)
  else writeMem mem fromA ([0xFF, 0x25] ++ leBytes 4 stackSlot)

/-- `DetoursLite::WritePushRet`, 32-bit arm (lines 278-291):
`68 imm32 C3`. -/
def writePushRet (mem : Nat → Nat) (fromA toA : Nat) : Nat → Nat :=
  writeMem mem fromA (0x68 :: (leBytes 4 toA ++ [0xC3]))

/-- `DetoursLite::RelocateInstruction` (lines 326-344): rewrite the rel32
of `E8`/`E9` and of `0F 8x`; every other instruction — including the
short-form `EB` and `70..7F` jumps — is left unchanged and the function
returns `true` in all cases. -/
def relocateInstruction (mem : Nat → Nat) (addr oldA newA : Nat) :
    Bool × (Nat → Nat) :=
  if mem addr % 256 = 0xE8 ∨ mem addr % 256 = 0xE9 then
    (true, writeMem mem (addr + 1)
      (leBytes 4 (relOffset32 (newA + 5) (addOffset (oldA + 5) (readI32 mem (addr + 1))))))
  else if mem addr % 256 = 0x0F ∧ (mem (addr + 1) % 256) &&& 0xF0 = 0x80 then
    (true, writeMem mem (addr + 2)
      (leBytes 4 (relOffset32 (newA + 6) (addOffset (oldA + 6) (readI32 mem (addr + 2))))))
  else (true, mem)

/-- The relocation loop of `BuildTrampoline` (lines 315-319): walk the
copied prologue instruction by instruction, relocating each in place.
The fuel equals the loop bound `originalSize`; it cannot run out because
every instruction length is at least 1. -/
def btGo (origAddr trampAddr origSize : Nat) : Nat → Nat → (Nat → Nat) → (Nat → Nat)
  | 0, _, mem => mem
  | fuel + 1, i, mem =>
    if i < origSize then
      btGo origAddr trampAddr origSize fuel
        (i + getLength (memWindow mem (trampAddr + i)))
        (relocateInstruction mem (trampAddr + i) (origAddr + i) (trampAddr + i)).2
    else mem

/-- `DetoursLite::BuildTrampoline` (lines 308-324): copy the prologue
into the trampoline buffer, relocate, then append the jump back to
`originalAddress + originalSize`. -/
def buildTrampoline (mem : Nat → Nat) (trampAddr : Nat) (originalBytes : List Nat)
    (origSize origAddr : Nat) : Nat → Nat :=
  writeJumpRelative
    (btGo origAddr trampAddr origSize origSize 0 (writeMem mem trampAddr originalBytes))
    (trampAddr + origSize) (origAddr + origSize)

/-- The `switch (type)` of `InstallHook` (lines 82-92): the per-type
hook write; `PUSH_RET` on 64-bit fails, and the `AUTO` case falls
through the `switch` leaving `success = false`. -/
def hookWrite (env : DEnv) (mem : Nat → Nat) (target detour : Nat) :
    HookType → Bool × (Nat → Nat)
  | .JMP_RELATIVE => (true, writeJumpRelative mem target detour)
  | .JMP_ABSOLUTE => (true, writeJumpAbsolute env.is64 env.stackSlot mem target detour)
  | .PUSH_RET =>
    if env.is64 then (false, mem) else (true, writePushRet mem target detour)
  | .AUTO => (false, mem)

/-- `DetoursLite::InstallHook` (lines 26-120), in source order: the
already-hooked guard, `AUTO` resolution, the prologue-length loop, the
trampoline allocation (0 = failure), saving the original bytes, building
the trampoline, the protection toggle (failure frees the trampoline),
the per-type hook write (`PUSH_RET` on 64-bit fails; the `AUTO` case
falls through the `switch` with `success = false`), the NOP pad of
`[hookSize, bytesToCopy)`, the ignored protection restore, and finally
either registering the entry or freeing the trampoline. -/
def InstallHook (env : DEnv) (s : DState) (target detour : Nat) (ty : HookType) :
    Bool × DState :=
  if IsHookedB s.trampolines target then (false, s)
  else
    match computeBytesToCopy s.mem target
      (CalculateHookSize env.is64 (resolveHookType env.is64 ty)) with
    | none => (false, s)
    | some bytesToCopy =>
      if env.allocSeq s.allocCount = 0 then
        (false, { s with allocCount := s.allocCount + 1 })
      else
        if env.vpOk = false then
          (false,
            { s with
              mem := buildTrampoline s.mem (env.allocSeq s.allocCount)
                (readMemList s.mem target bytesToCopy) bytesToCopy target,
              allocated := (env.allocSeq s.allocCount :: s.allocated).erase
                (env.allocSeq s.allocCount),
              allocCount := s.allocCount + 1 })
        else
          match hookWrite env
            (buildTrampoline s.mem (env.allocSeq s.allocCount)
              (readMemList s.mem target bytesToCopy) bytesToCopy target)
            target detour (resolveHookType env.is64 ty) with
          | (false, mem2) =>
            (false,
              { s with
                mem := mem2,
                allocated := (env.allocSeq s.allocCount :: s.allocated).erase
                  (env.allocSeq s.allocCount),
                allocCount := s.allocCount + 1 })
          | (true, mem2) =>
            (true,
              { s with
                mem :=
                  if CalculateHookSize env.is64 (resolveHookType env.is64 ty) < bytesToCopy then
                    writeMem mem2
                      (target + CalculateHookSize env.is64 (resolveHookType env.is64 ty))
                      (List.replicate
                        (bytesToCopy - CalculateHookSize env.is64 (resolveHookType env.is64 ty))
                        0x90)
                  else mem2,
                trampolines := s.trampolines ++
                  [⟨target, env.allocSeq s.allocCount, bytesToCopy,
                    readMemList s.mem target bytesToCopy, true⟩],
                allocated := env.allocSeq s.allocCount :: s.allocated,
                allocCount := s.allocCount + 1 })

/-- `DetoursLite::RemoveHook` (lines 122-152): look up the first entry
for the target, require the protection toggle, copy `originalSize` saved
bytes back, free the trampoline, erase the entry. -/
def RemoveHook (env : DEnv) (s : DState) (target : Nat) : Bool × DState :=
  match s.trampolines.find? (fun t => t.originalFunction == target) with
  | none => (false, s)
  | some t =>
    if env.vpOk = false then (false, s)
    else
      (true,
        { s with
          mem := writeMem s.mem target (t.originalBytes.take t.originalSize),
          trampolines := s.trampolines.eraseP (fun u => u.originalFunction == target),
          allocated := s.allocated.erase t.trampolineAddress })

/-- Replace the `isActive` flag of the first registry entry for
`target` (the in-place mutation through the `find_if` iterator). -/
def setActiveFirst : List Tramp → Nat → Bool → List Tramp
  | [], _, _ => []
  | t :: ts, target, b =>
    if t.originalFunction == target then { t with isActive := b } :: ts
    else t :: setActiveFirst ts target b

/-- `DetoursLite::EnableHook` (lines 154-171): flip the flag and return
`true`; the body contains no write to the target (the re-install logic
is an unimplemented comment in the source). -/
def EnableHook (s : DState) (target : Nat) : Bool × DState :=
  match s.trampolines.find? (fun t => t.originalFunction == target) with
  | none => (false, s)
  | some t =>
    if t.isActive then (false, s)
    else (true, { s with trampolines := setActiveFirst s.trampolines target true })

/-- `DetoursLite::DisableHook` (lines 173-199): restore the original
prologue in place, keep the entry and trampoline, clear the flag. -/
def DisableHook (env : DEnv) (s : DState) (target : Nat) : Bool × DState :=
  match s.trampolines.find? (fun t => t.originalFunction == target) with
  | none => (false, s)
  | some t =>
    if ¬ t.isActive then (false, s)
    else if env.vpOk = false then (false, s)
    else
      (true,
        { s with
          mem := writeMem s.mem target (t.originalBytes.take t.originalSize),
          trampolines := setActiveFirst s.trampolines target false })

/-- The `bytesToCopy` value a successful install uses (a function of the
inputs, for stating the restore property of C5). -/
def installCopyLen (env : DEnv) (s : DState) (target : Nat) (ty : HookType) : Nat :=
  (computeBytesToCopy s.mem target
    (CalculateHookSize env.is64 (resolveHookType env.is64 ty))).getD 0

/-- Environment of the concrete detour scenarios: 32-bit build (AUTO
resolves to `JMP_RELATIVE`), allocator returning `0x9000`, protection
changes succeeding. -/
def envD : DEnv where
  is64 := false
  allocSeq := fun _ => 0x9000
  vpOk := true
  stackSlot := 0x7000

/-- Target memory for the C5/C6 scenarios: five NOPs at `0x1000`,
`0xC3` (RET) elsewhere. -/
def memNop : Nat → Nat :=
  fun a => if 0x1000 ≤ a ∧ a < 0x1005 then 0x90 else 0xC3

/-- Initial engine state over `memNop` with an empty registry. -/
def sD : DState where
  mem := memNop
  trampolines := []
  allocated := []
  allocCount := 0

/-- State after installing a hook at `0x1000` (detour `0x2000`). -/
def sInstalled : DState := (InstallHook envD sD 0x1000 0x2000 HookType.AUTO).2

/-- State after disabling that hook. -/
def sDisabled : DState := (DisableHook envD sInstalled 0x1000).2

/-- State after re-enabling it. -/
def sEnabled : DState := (EnableHook sDisabled 0x1000).2

/-- Target memory for the C7 scenario: `EB 03` (JMP rel8, a short-form
relative jump) followed by three NOPs at `0x1000`. -/
def memShort : Nat → Nat :=
  fun a => if a = 0x1000 then 0xEB
    else if a = 0x1001 then 0x03
    else if 0x1002 ≤ a ∧ a < 0x1005 then 0x90
    else 0xC3

/-- Initial engine state over `memShort`. -/
def sD7 : DState where
  mem := memShort
  trampolines := []
  allocated := []
  allocCount := 0

/-- State after installing over the short-jump prologue. -/
def sInstalled7 : DState := (InstallHook envD sD7 0x1000 0x2000 HookType.AUTO).2

/-!
Pointer chain (MemoryEngine.cpp lines 551-571) and the claim-side
reference recursion.
-/

/-- The loop of `MemoryEngine::FollowPointerChain`: at each offset read a
word at the current address (`SafeRead<uintptr_t>`), add the offset; the
extra readability pre-check at lines 563-566 runs only when the offset
is not the last one. -/
def fpcAux (os : MemOS) : Nat → List Nat → Option Nat
  | current, [] => some current
  | current, o :: rest =>
    match SafeReadPtr os current with
    | none => none
    | some q =>
      if rest.isEmpty then fpcAux os ((q + o) % U64) rest
      else if IsAddressReadable os ((q + o) % U64) 8 then fpcAux os ((q + o) % U64) rest
      else none

/-- `MemoryEngine::FollowPointerChain`. -/
def FollowPointerChain (os : MemOS) (base : Nat) (offsets : List Nat) : Option Nat :=
  fpcAux os base offsets

/-- The pointer-chain recursion as the claim words it: `p := base`; for
each offset, read a word `q` at `p` and set `p := q + offset`; after the
last offset return `p` with no final dereference; a failed read fails
the chain. -/
def chainSpec (os : MemOS) : Nat → List Nat → Option Nat
  | p, [] => some p
  | p, o :: rest =>
    match SafeReadPtr os p with
    | none => none
    | some q => chainSpec os ((q + o) % U64) rest

/-!
Next scan (MemoryEngine.cpp lines 697-758).  The claims touch only the
`changed`/`unchanged` branches; the value-literal parser
(`StringToValue`) used by `exact` and the numeric comparison fallback
(int/float decode plus `CompareNumericValues`) are abstract parameters
of the environment.
-/

/-- `ScanResult` (MemoryEngine.hpp lines 32-37). -/
structure ScanResult where
  address : Nat
  value : List Nat
  previousValue : List Nat
  type : String
deriving DecidableEq

/-- Environment of `NextScan`: the memory snapshot, the value-literal
parser, and the numeric-comparison fallback, the latter two abstract. -/
structure ScanEnv where
  os : MemOS
  parseValue : String → String → List Nat
  numericMatch : String → String → List Nat → List Nat → Bool

/-- The `match` computation of `NextScan` (lines 709-746) given the
re-read bytes.  `exact` compares `current.size()` bytes against the
parsed literal (modelled with `take`; the source `memcmp` would overrun
a shorter parse), `unchanged`/`changed` compare against the previous
bytes, anything else falls to the numeric branch. -/
def nextScanMatch (env : ScanEnv) (scanType value : String) (prev : ScanResult)
    (current : List Nat) : Bool :=
  if scanType = "exact" then
    !(env.parseValue value prev.type).isEmpty &&
      current == (env.parseValue value prev.type).take current.length
  else if scanType = "unchanged" then current == prev.value
  else if scanType = "changed" then !(current == prev.value)
  else env.numericMatch scanType prev.type current prev.value

/-- Per-entry step of `NextScan` (lines 703-756): re-read
`prev.value.size()` bytes at the recorded address, drop the entry if the
read is empty or of the wrong size, else emit the record with the same
address, the new bytes as `value` and the prior bytes as
`previousValue` exactly when the scan type matches. -/
def nextScanEntry (env : ScanEnv) (scanType value : String) (prev : ScanResult) :
    Option ScanResult :=
  if (SafeReadBytes env.os prev.address prev.value.length).isEmpty ∨
      (SafeReadBytes env.os prev.address prev.value.length).length ≠ prev.value.length then
    none
  else if nextScanMatch env scanType value prev
      (SafeReadBytes env.os prev.address prev.value.length) then
    some ⟨prev.address, SafeReadBytes env.os prev.address prev.value.length,
      prev.value, prev.type⟩
  else none

/-- `MemoryEngine::NextScan` over a previous-results list. -/
def NextScan (env : ScanEnv) (scanType value : String)
    (previousResults : List ScanResult) : List ScanResult :=
  previousResults.filterMap (nextScanEntry env scanType value)

/-- A previous entry is still readable at its recorded value size: the
re-read returns (nonempty) bytes of exactly that size. -/
def reReadOk (os : MemOS) (p : ScanResult) : Bool :=
  !(SafeReadBytes os p.address p.value.length).isEmpty &&
    (SafeReadBytes os p.address p.value.length).length == p.value.length

/-- Environment of the C9 witness: the `osW` snapshot, both abstract
parameters trivial. -/
def env9 : ScanEnv where
  os := osW
  parseValue := fun _ _ => []
  numericMatch := fun _ _ _ _ => false

/-- Previous entry of the C9 witness: address `0x1100`, one recorded
byte `0x05` (the memory now holds `0x00` there). -/
def prev9 : ScanResult where
  address := 0x1100
  value := [0x05]
  previousValue := []
  type := "bytes"

/-- The record the `changed` scan emits for `prev9`. -/
def res9 : ScanResult where
  address := 0x1100
  value := [0x00]
  previousValue := [0x05]
  type := "bytes"

/-!
Scan-loop bound (ScanForValue line 129, FirstScan line 653,
PatternScanAll line 254): `i <= regionData.size() - value.size()` with
both operands `size_t`, stepping by the alignment (1 for the pattern
scan).
-/

/-- The loop bound `regionData.size() - value.size()` as `size_t`
arithmetic computes it. -/
def scanLoopBound (blockLen needleLen : Nat) : Nat := subMod U64 blockLen needleLen

/-- Position `i` is tested by the block-scan loop
`for (i = 0; i <= blockLen - needleLen; i += alignment)`. -/
def scanPositionTested (blockLen needleLen alignment i : Nat) : Prop :=
  (∃ k, i = alignment * k) ∧ i ≤ scanLoopBound blockLen needleLen

/-!
Theorems.
-/

theorem SafeReadBytes_length (os : MemOS) (address size : Nat) :
    (SafeReadBytes os address size).length = size ∨
      SafeReadBytes os address size = [] := by
  unfold SafeReadBytes
  split
  · exact Or.inr rfl
  · split
    · exact Or.inr rfl
    · exact Or.inl (by simp)

/-- C1: `SafeReadBytes` either returns exactly `L` bytes or the empty
result; it is empty whenever the query fails, the region is not
committed, the region does not cover `[A, A+L)`, the protection lacks
a readable bit, or the guarded copy faults.  (Totality of the embedding
is the "never aborts" part: every input maps to a returned value.) -/
theorem C1_safe_read (os : MemOS) (A L : Nat) :
    ((SafeReadBytes os A L).length = L ∨ SafeReadBytes os A L = []) ∧
    (os.virtualQuery A = none → SafeReadBytes os A L = []) ∧
    (∀ mbi, os.virtualQuery A = some mbi → mbi.state ≠ MEM_COMMIT →
      SafeReadBytes os A L = []) ∧
    (∀ mbi, os.virtualQuery A = some mbi →
      ¬ subMod U64 (A + L) 1 ≤ subMod U64 (mbi.baseAddress + mbi.regionSize) 1 →
      SafeReadBytes os A L = []) ∧
    (∀ mbi, os.virtualQuery A = some mbi → mbi.protect &&& readableMask = 0 →
      SafeReadBytes os A L = []) ∧
    (os.copyFault A L = true → SafeReadBytes os A L = []) := by
  refine ⟨SafeReadBytes_length os A L, ?_, ?_, ?_, ?_, ?_⟩
  · intro hq
    unfold SafeReadBytes IsAddressReadable IsAddressValid
    simp [hq]
  · intro mbi hq hstate
    unfold SafeReadBytes IsAddressReadable IsAddressValid
    simp [hq, hstate]
  · intro mbi hq hcover
    unfold SafeReadBytes IsAddressReadable IsAddressValid
    simp [hq, hcover]
  · intro mbi hq hprot
    unfold SafeReadBytes IsAddressReadable IsAddressValid
    simp [hq, hprot]
  · intro hf
    unfold SafeReadBytes
    split
    · rfl
    · simp [hf]

/-- C1 witness: at `A = 0x1000, L = 4` the read returns 4 bytes, and the
fault conjunct applies at a read spanning the faulting page. -/
theorem C1_safe_read_witness :
    (SafeReadBytes osW 0x1000 4).length = 4 ∧
      SafeReadBytes osW 0x17FE 4 = [] := by
  constructor
  · have h := (C1_safe_read osW 0x1000 4).1
    rcases h with h | h
    · exact h
    · exact absurd h (by decide)
  · exact (C1_safe_read osW 0x17FE 4).2.2.2.2.2 (by decide)

/-- C2 counterexample: writing `[1, 2, 3]` at `0x1000` while the
restoring protection change fails returns `true` (the source ignores the
restore's result, MemoryEngine.cpp line 94), and the protection is left
at RWX rather than the original `PAGE_READONLY` — the claim's "failure
of either protection change makes the write a hard failure returning
false" is refuted at this input. -/
theorem C2_restore_failure_not_hard :
    (SafeWriteBytes envC2 sC2 0x1000 [1, 2, 3]).1 = true ∧
    (SafeWriteBytes envC2 sC2 0x1000 [1, 2, 3]).2.prot = PAGE_EXECUTE_READWRITE ∧
    (SafeWriteBytes envC2 sC2 0x1000 [1, 2, 3]).2.prot ≠ sC2.prot := by
  refine ⟨?_, ?_, ?_⟩ <;> decide

/-- C2 amended: the layer toggles the target to RWX unconditionally;
only failure of the INITIAL toggle is a hard failure (`false`, with the
original protection intact); a fault during the copy returns `false`
with the protection left elevated; the restore's result is ignored, so
the write returns `true` whenever the toggle and the copy succeeded, the
protection being restored only if the restore call also succeeded. -/
theorem C2_write_protection_amended (env : WEnv) (s : WState) (address : Nat)
    (bytes : List Nat)
    (hgate : bytes.isEmpty = false ∧ IsAddressValid env.os address bytes.length = true) :
    (env.vpToggleOk = false →
      SafeWriteBytes env s address bytes = (false, s)) ∧
    (env.vpToggleOk = true → env.writeFault = true →
      SafeWriteBytes env s address bytes =
        (false, { s with prot := PAGE_EXECUTE_READWRITE })) ∧
    (env.vpToggleOk = true → env.writeFault = false →
      (SafeWriteBytes env s address bytes).1 = true ∧
      (SafeWriteBytes env s address bytes).2.mem = writeMem s.mem address bytes ∧
      (SafeWriteBytes env s address bytes).2.prot =
        (if env.vpRestoreOk then s.prot else PAGE_EXECUTE_READWRITE)) := by
  obtain ⟨h1, h2⟩ := hgate
  have hcond : ¬ (bytes.isEmpty ∨ ¬ IsAddressValid env.os address bytes.length) := by
    simp [h1, h2]
  refine ⟨?_, ?_, ?_⟩
  · intro ht
    unfold SafeWriteBytes SafeWriteMemory
    rw [if_neg hcond, if_pos ht]
  · intro ht hf
    unfold SafeWriteBytes SafeWriteMemory
    rw [if_neg hcond, if_neg (by simp [ht]), if_pos hf]
  · intro ht hf
    unfold SafeWriteBytes SafeWriteMemory
    rw [if_neg hcond, if_neg (by simp [ht]), if_neg (by simp [hf])]
    by_cases hr : env.vpRestoreOk = true
    · rw [if_pos hr, if_pos hr]
      exact ⟨rfl, rfl, rfl⟩
    · rw [if_neg hr, if_neg hr]
      exact ⟨rfl, rfl, rfl⟩

/-- C2 amended witness: at the concrete counterexample input the third
branch applies — the write reports success and leaves RWX in place. -/
theorem C2_write_protection_amended_witness :
    (SafeWriteBytes envC2 sC2 0x1000 [1, 2, 3]).1 = true ∧
    (SafeWriteBytes envC2 sC2 0x1000 [1, 2, 3]).2.prot =
      (if envC2.vpRestoreOk then sC2.prot else PAGE_EXECUTE_READWRITE) := by
  have h := (C2_write_protection_amended envC2 sC2 0x1000 [1, 2, 3]
    (by constructor <;> decide)).2.2 (by decide) (by decide)
  exact ⟨h.1, h.2.2⟩

/-- C3 counterexample: `68 imm32` (PUSH imm32) assembles to 5 bytes but
`GetLength` returns 1 — `0x68` matches none of the tables in
`GetOpcodeSize`, so it falls through to the bare-opcode default.  The
claim's own example demands 5 for this input. -/
theorem C3_push_imm32_counterexample :
    getLength [0x68, 0x78, 0x56, 0x34, 0x12] = 1 ∧
      getLength [0x68, 0x78, 0x56, 0x34, 0x12] ≠ 5 := by
  constructor <;> decide

theorem getLength_cons_bare (c : Nat) (rest : List Nat)
    (h1 : isPrefixByte c = false)
    (h2 : c ≠ 0x0F)
    (h3 : ¬ ((0x50 ≤ c ∧ c ≤ 0x5F) ∨ (0x90 ≤ c ∧ c ≤ 0x97) ∨ (0xA0 ≤ c ∧ c ≤ 0xA3)))
    (h4 : ¬ (c = 0xE8 ∨ c = 0xE9))
    (h5 : c ≠ 0xEB)
    (h6 : opcodeHasModRM c = false) :
    getLength (c :: rest) = 1 := by
  have hop : opcodeByte (c :: rest) = c := by
    unfold opcodeByte
    simp [h2]
  have hlen : opcodeBytesLen (c :: rest) = 1 := by
    unfold opcodeBytesLen
    simp [h2]
  unfold getLength getLengthAux getOpcodeSize
  rw [if_neg (by simp [h1]), hop, hlen, if_neg h3, if_neg h4,
    if_neg h5, if_neg (by simp [h6])]

/-- C3 amended: of the opcode/immediate pairs the claim lists, only
`E8`/`E9` (+4-byte rel32) and `EB` (+1-byte rel8) are covered by
`GetOpcodeSize`; `6A`, `68`, `B0..BF` and `C2` match no table and are
sized as a bare 1-byte opcode, not as opcode+immediate. -/
theorem C3_immediate_sizes_amended :
    (∀ (b1 b2 b3 b4 : Nat) (rest : List Nat),
      getLength (0xE8 :: b1 :: b2 :: b3 :: b4 :: rest) = 5 ∧
      getLength (0xE9 :: b1 :: b2 :: b3 :: b4 :: rest) = 5) ∧
    (∀ (b1 : Nat) (rest : List Nat), getLength (0xEB :: b1 :: rest) = 2) ∧
    (∀ rest : List Nat,
      getLength (0x6A :: rest) = 1 ∧ getLength (0x68 :: rest) = 1 ∧
      getLength (0xC2 :: rest) = 1) ∧
    (∀ k : Nat, k < 16 → ∀ rest : List Nat, getLength ((0xB0 + k) :: rest) = 1) := by
  refine ⟨fun b1 b2 b3 b4 rest => ⟨rfl, rfl⟩, fun b1 rest => rfl,
    fun rest => ⟨?_, ?_, ?_⟩, ?_⟩
  · exact getLength_cons_bare 0x6A rest (by decide) (by decide) (by decide)
      (by decide) (by decide) (by decide)
  · exact getLength_cons_bare 0x68 rest (by decide) (by decide) (by decide)
      (by decide) (by decide) (by decide)
  · exact getLength_cons_bare 0xC2 rest (by decide) (by decide) (by decide)
      (by decide) (by decide) (by decide)
  · intro k hk rest
    interval_cases k <;>
      exact getLength_cons_bare _ rest (by decide) (by decide) (by decide)
        (by decide) (by decide) (by decide)

/-- C3 amended witness: concrete instances of each family, the `B0+k`
conjunct applied at `k = 3`. -/
theorem C3_immediate_sizes_amended_witness :
    getLength [0xE8, 0x10, 0x20, 0x30, 0x40] = 5 ∧
      getLength ((0xB0 + 3) :: [0x07]) = 1 := by
  exact ⟨(C3_immediate_sizes_amended.1 0x10 0x20 0x30 0x40 []).1,
    C3_immediate_sizes_amended.2.2.2 3 (by decide) [0x07]⟩

/-- C4 counterexample: `0x00` (ADD r/m8, r8) resolves in none of the
covered tables — it is no prefix, no escape, not in the no-ModRM ranges,
not `E8`/`E9`/`EB`, and in none of the ModRM groups — yet `GetLength`
returns 1, not the 0 the claim requires. -/
theorem C4_unresolved_byte_counterexample :
    getLength [0x00] = 1 ∧ getLength [0x00] ≠ 0 := by
  constructor <;> decide

theorem opcodeBytesLen_pos (data : List Nat) : 1 ≤ opcodeBytesLen data := by
  unfold opcodeBytesLen
  split_ifs <;> omega

theorem getOpcodeSize_pos (data : List Nat) (hasRex : Bool) :
    1 ≤ getOpcodeSize data hasRex := by
  have h := opcodeBytesLen_pos data
  unfold getOpcodeSize
  split_ifs <;> omega

theorem getLengthAux_pos (data : List Nat) :
    ∀ (offset : Nat) (hasRex : Bool), 1 ≤ getLengthAux data offset hasRex := by
  induction data with
  | nil =>
    intro offset hasRex
    have h := getOpcodeSize_pos [] hasRex
    unfold getLengthAux
    omega
  | cons b rest ih =>
    intro offset hasRex
    unfold getLengthAux
    split
    · exact ih (offset + 1) (hasRex || isRexPrefixByte b)
    · have h := getOpcodeSize_pos (b :: rest) hasRex
      omega

theorem getLength_pos (data : List Nat) : 1 ≤ getLength data :=
  getLengthAux_pos data 0 false

theorem cbcGo_isSome (mem : Nat → Nat) (target hookSize : Nat) :
    ∀ (fuel acc : Nat), hookSize ≤ acc + fuel →
      (cbcGo mem target hookSize fuel acc).isSome = true := by
  intro fuel
  induction fuel with
  | zero =>
    intro acc h
    unfold cbcGo
    rw [if_pos (by omega)]
    rfl
  | succ fuel' ih =>
    intro acc h
    have hlen := getLength_pos (memWindow mem (target + acc))
    unfold cbcGo
    split
    · rfl
    · rw [if_neg (by omega)]
      exact ih (acc + getLength (memWindow mem (target + acc))) (by omega)

/-- C4 amended: `GetLength` never returns 0 — a first byte resolving in
no covered table is sized as a bare opcode (prefixes included), so the
zero-length guard in `InstallHook`'s prologue loop (lines 48-56), which
does abort installation on a zero length, can never fire: the
`bytesToCopy` computation always succeeds. -/
theorem C4_no_zero_length_amended :
    (∀ data : List Nat, 1 ≤ getLength data) ∧
    (∀ (mem : Nat → Nat) (target hookSize : Nat),
      (computeBytesToCopy mem target hookSize).isSome = true) := by
  refine ⟨getLength_pos, fun mem target hookSize => ?_⟩
  exact cbcGo_isSome mem target hookSize hookSize 0 (by omega)

theorem find?_append_singleton {α} (p : α → Bool) (l : List α) (x : α)
    (hl : ∀ y ∈ l, p y = false) (hx : p x = true) :
    (l ++ [x]).find? p = some x := by
  induction l with
  | nil => simp [List.find?_cons_of_pos, hx]
  | cons a as ih =>
    rw [List.cons_append, List.find?_cons_of_neg _ (by simp [hl a (by simp)])]
    exact ih (fun y hy => hl y (by simp [hy]))

theorem eraseP_append_singleton {α} (p : α → Bool) (l : List α) (x : α)
    (hl : ∀ y ∈ l, p y = false) (hx : p x = true) :
    (l ++ [x]).eraseP p = l := by
  induction l with
  | nil => simp [List.eraseP_cons, hx]
  | cons a as ih =>
    rw [List.cons_append, List.eraseP_cons_of_neg (by simp [hl a (by simp)])]
    rw [ih (fun y hy => hl y (by simp [hy]))]

theorem readMemList_getD (mem : Nat → Nat) (a n i : Nat) (h : i < n) :
    (readMemList mem a n).getD i 0 = mem (a + i) := by
  simp [readMemList, List.getD, h]

theorem readMemList_length (mem : Nat → Nat) (a n : Nat) :
    (readMemList mem a n).length = n := by
  simp [readMemList]

theorem install_success_state (env : DEnv) (s : DState) (target detour : Nat)
    (ty : HookType) (s1 : DState)
    (h : InstallHook env s target detour ty = (true, s1)) :
    IsHookedB s.trampolines target = false ∧ env.vpOk = true ∧
    ∃ n m2,
      computeBytesToCopy s.mem target
        (CalculateHookSize env.is64 (resolveHookType env.is64 ty)) = some n ∧
      s1 = { mem := m2,
             trampolines := s.trampolines ++
               [⟨target, env.allocSeq s.allocCount, n, readMemList s.mem target n, true⟩],
             allocated := env.allocSeq s.allocCount :: s.allocated,
             allocCount := s.allocCount + 1 } := by
  unfold InstallHook at h
  split at h
  · simp at h
  · split at h
    · simp at h
    · next n hcbc =>
      split at h
      · simp at h
      · split at h
        · simp at h
        · next hvp =>
          split at h
          · simp at h
          · next mem2 hw =>
            have hs1 := (Prod.mk.injEq _ _ _ _).mp h
            refine ⟨by simp_all, by simp_all, n, _, hcbc, hs1.2.symm⟩

/-- C5: after a successful `InstallHook` at `T`, `RemoveHook T` returns
`true`, writes back exactly the prologue bytes that install read from
`T` before patching (the re-read `installCopyLen` bytes), frees the
trampoline allocation (the `allocated` multiset is restored), and
erases the registry entry, so `IsHooked T` is false afterwards. -/
theorem C5_install_remove_roundtrip (env : DEnv) (s : DState) (target detour : Nat)
    (ty : HookType)
    (h : (InstallHook env s target detour ty).1 = true) :
    (RemoveHook env (InstallHook env s target detour ty).2 target).1 = true ∧
    (RemoveHook env (InstallHook env s target detour ty).2 target).2.trampolines
      = s.trampolines ∧
    IsHookedB (RemoveHook env (InstallHook env s target detour ty).2 target).2.trampolines
      target = false ∧
    (RemoveHook env (InstallHook env s target detour ty).2 target).2.allocated
      = s.allocated ∧
    ∀ i, i < installCopyLen env s target ty →
      (RemoveHook env (InstallHook env s target detour ty).2 target).2.mem (target + i)
        = s.mem (target + i) := by
  rcases hE : InstallHook env s target detour ty with ⟨b, s1⟩
  rw [hE] at h
  have hb : b = true := h
  subst hb
  obtain ⟨hhook, hvp, n, m2, hcbc, hs1⟩ := install_success_state env s target detour ty s1 hE
  have hmemF : ∀ y ∈ s.trampolines, (y.originalFunction == target) = false := by
    intro y hy
    have hfa : ¬ (y.originalFunction == target) = true := by
      unfold IsHookedB at hhook
      exact List.any_eq_false.mp hhook y hy
    simpa using hfa
  have hlen : installCopyLen env s target ty = n := by
    unfold installCopyLen
    rw [hcbc]
    rfl
  have hp : (fun t : Tramp => t.originalFunction == target)
      (⟨target, env.allocSeq s.allocCount, n, readMemList s.mem target n, true⟩ : Tramp)
        = true := by simp
  have hfind := find?_append_singleton (fun t : Tramp => t.originalFunction == target)
    s.trampolines _ hmemF hp
  have hera := eraseP_append_singleton (fun t : Tramp => t.originalFunction == target)
    s.trampolines _ hmemF hp
  subst hs1
  simp only [RemoveHook, hfind]
  rw [if_neg (by simp [hvp])]
  refine ⟨rfl, hera, ?_, ?_, ?_⟩
  · rw [hera]
    exact hhook
  · exact List.erase_cons_head _ _
  · intro i hi
    rw [hlen] at hi
    have htake : (readMemList s.mem target n).take n = readMemList s.mem target n :=
      List.take_of_length_le (by rw [readMemList_length])
    simp only [writeMem, htake]
    rw [if_pos ⟨by omega, by rw [readMemList_length]; omega⟩]
    rw [Nat.add_sub_cancel_left]
    exact readMemList_getD s.mem target n i hi

/-- C5 witness: the 5-NOP prologue at `0x1000` installs; removal
restores the NOP at `0x1000` and the registry no longer holds the
target. -/
theorem C5_install_remove_roundtrip_witness :
    (InstallHook envD sD 0x1000 0x2000 HookType.AUTO).1 = true ∧
    (RemoveHook envD (InstallHook envD sD 0x1000 0x2000 HookType.AUTO).2 0x1000).1
      = true ∧
    (RemoveHook envD (InstallHook envD sD 0x1000 0x2000 HookType.AUTO).2 0x1000).2.mem
      (0x1000 + 0) = sD.mem (0x1000 + 0) ∧
    IsHookedB (RemoveHook envD
      (InstallHook envD sD 0x1000 0x2000 HookType.AUTO).2 0x1000).2.trampolines 0x1000
      = false := by
  have hinst : (InstallHook envD sD 0x1000 0x2000 HookType.AUTO).1 = true := by decide
  have h := C5_install_remove_roundtrip envD sD 0x1000 0x2000 HookType.AUTO hinst
  exact ⟨hinst, h.1, h.2.2.2.2 0 (by decide), h.2.2.1⟩

/-- C6: on the installed-then-disabled hook, `EnableHook` returns `true`
and marks the entry active, but the bytes at the target are still the
original NOP prologue, not the `E9` detour jump the claim requires —
the source's re-install step is an unimplemented comment
(DetoursLite.cpp line 167).  Install itself did write `E9` (third
conjunct), so after disable-then-enable the hook bytes are absent. -/
theorem C6_enable_does_not_rewrite :
    (InstallHook envD sD 0x1000 0x2000 HookType.AUTO).1 = true ∧
    sInstalled.mem 0x1000 = 0xE9 ∧
    (DisableHook envD sInstalled 0x1000).1 = true ∧
    sDisabled.mem 0x1000 = 0x90 ∧
    (EnableHook sDisabled 0x1000).1 = true ∧
    sEnabled.trampolines.map (fun t => t.isActive) = [true] ∧
    sEnabled.mem 0x1000 = 0x90 ∧
    sEnabled.mem 0x1000 ≠ 0xE9 := by
  refine ⟨?_, ?_, ?_, ?_, ?_, ?_, ?_, ?_⟩ <;> decide

/-- C7: a prologue beginning with the short-form relative jump `EB 03`
is NOT treated as a failure: `InstallHook` returns `true`, registers the
hook, and the trampoline holds the `EB 03` bytes copied verbatim
(`RelocateInstruction` matches only `E8`/`E9` and `0F 8x`, returns
`true` for everything else, and `BuildTrampoline` ignores its result) —
refuting the claim that install returns `false` here. -/
theorem C7_short_jump_install_succeeds :
    getLength [0xEB, 0x03] = 2 ∧
    (relocateInstruction memShort 0x1000 0x1000 0x9000).1 = true ∧
    (relocateInstruction memShort 0x1000 0x1000 0x9000).2 0x1001 = 0x03 ∧
    (InstallHook envD sD7 0x1000 0x2000 HookType.AUTO).1 = true ∧
    IsHookedB sInstalled7.trampolines 0x1000 = true ∧
    sInstalled7.mem 0x9000 = 0xEB ∧
    sInstalled7.mem 0x9001 = 0x03 := by
  refine ⟨?_, ?_, ?_, ?_, ?_, ?_, ?_⟩ <;> decide

/-- C8: `FollowPointerChain` coincides with the claim's recursion: start
at `base`; for every offset (the last included) read a word at the
current address and add the offset; return the final sum with no last
dereference; a failed read fails the chain.  The source's extra
readability pre-check on non-final steps (lines 563-566) changes
nothing: an address it rejects is one the next `SafeRead` fails on. -/
theorem C8_pointer_chain_follows_spec (os : MemOS) (base : Nat) (offsets : List Nat) :
    FollowPointerChain os base offsets = chainSpec os base offsets := by
  unfold FollowPointerChain
  induction offsets generalizing base with
  | nil => rfl
  | cons o rest ih =>
    cases hq : SafeReadPtr os base with
    | none => simp only [fpcAux, chainSpec, hq]
    | some q =>
      simp only [fpcAux, chainSpec, hq]
      cases rest with
      | nil => simp [fpcAux, chainSpec]
      | cons o2 r2 =>
        rw [if_neg (by simp)]
        by_cases hr : IsAddressReadable os ((q + o) % U64) 8 = true
        · rw [if_pos hr]
          exact ih ((q + o) % U64)
        · rw [if_neg hr]
          have hnone : SafeReadPtr os ((q + o) % U64) = none := by
            unfold SafeReadPtr
            rw [if_pos hr]
          simp [chainSpec, hnone]

theorem nextScanMatch_unchanged (env : ScanEnv) (v : String) (prev : ScanResult)
    (cur : List Nat) :
    nextScanMatch env "unchanged" v prev cur = (cur == prev.value) := by
  unfold nextScanMatch
  rw [if_neg (by decide), if_pos rfl]

theorem nextScanMatch_changed (env : ScanEnv) (v : String) (prev : ScanResult)
    (cur : List Nat) :
    nextScanMatch env "changed" v prev cur = !(cur == prev.value) := by
  unfold nextScanMatch
  rw [if_neg (by decide), if_neg (by decide), if_pos rfl]

theorem nextScanEntry_some_shape (env : ScanEnv) (scanType v : String)
    (prev r : ScanResult) (h : nextScanEntry env scanType v prev = some r) :
    r.address = prev.address ∧ r.previousValue = prev.value ∧ r.type = prev.type ∧
    r.value = SafeReadBytes env.os prev.address prev.value.length ∧
    reReadOk env.os prev = true := by
  unfold nextScanEntry at h
  split at h
  · simp at h
  · next hgate =>
    split at h
    · next hm =>
      have hr := Option.some.inj h
      subst hr
      push_neg at hgate
      refine ⟨rfl, rfl, rfl, rfl, ?_⟩
      unfold reReadOk
      simp [hgate.1, hgate.2]
    · simp at h

theorem nextScanEntry_changed_val (env : ScanEnv) (v : String) (prev r : ScanResult)
    (h : nextScanEntry env "changed" v prev = some r) :
    r.value ≠ r.previousValue := by
  unfold nextScanEntry at h
  split at h
  · simp at h
  · split at h
    · next hm =>
      have hr := Option.some.inj h
      subst hr
      rw [nextScanMatch_changed] at hm
      simpa using hm
    · simp at h

theorem nextScanEntry_unchanged_val (env : ScanEnv) (v : String) (prev r : ScanResult)
    (h : nextScanEntry env "unchanged" v prev = some r) :
    r.value = r.previousValue := by
  unfold nextScanEntry at h
  split at h
  · simp at h
  · split at h
    · next hm =>
      have hr := Option.some.inj h
      subst hr
      rw [nextScanMatch_unchanged] at hm
      simpa using hm
    · simp at h

theorem nextScanEntry_total (env : ScanEnv) (v : String) (prev : ScanResult)
    (hOk : reReadOk env.os prev = true) :
    (∃ r, nextScanEntry env "changed" v prev = some r) ∨
    (∃ r, nextScanEntry env "unchanged" v prev = some r) := by
  have hgate : ¬ ((SafeReadBytes env.os prev.address prev.value.length).isEmpty ∨
      (SafeReadBytes env.os prev.address prev.value.length).length ≠ prev.value.length) := by
    unfold reReadOk at hOk
    simp only [Bool.and_eq_true, beq_iff_eq, Bool.not_eq_true'] at hOk
    push_neg
    exact ⟨by simp [hOk.1], hOk.2⟩
  by_cases hc : SafeReadBytes env.os prev.address prev.value.length == prev.value
  · right
    refine ⟨⟨prev.address, SafeReadBytes env.os prev.address prev.value.length,
      prev.value, prev.type⟩, ?_⟩
    unfold nextScanEntry
    rw [if_neg hgate, if_pos (by rw [nextScanMatch_unchanged]; exact hc)]
  · left
    refine ⟨⟨prev.address, SafeReadBytes env.os prev.address prev.value.length,
      prev.value, prev.type⟩, ?_⟩
    unfold nextScanEntry
    rw [if_neg hgate, if_pos (by rw [nextScanMatch_changed]; simp_all)]

/-- C9: over one previous-results list and one memory snapshot,
`changed` and `unchanged` next scans are disjoint; every emitted record
derives from a previous entry, keeping its address, carrying the fresh
read as `value` and the prior bytes as `previousValue`; and every
previous entry whose re-read succeeds at the recorded size (`reReadOk`)
is emitted by exactly one of the two scans. -/
theorem C9_changed_unchanged_partition (env : ScanEnv) (v : String)
    (prevs : List ScanResult) :
    (∀ r, r ∈ NextScan env "changed" v prevs → r ∉ NextScan env "unchanged" v prevs) ∧
    (∀ r, r ∈ NextScan env "changed" v prevs ∨ r ∈ NextScan env "unchanged" v prevs →
      ∃ p, p ∈ prevs ∧ r.address = p.address ∧ r.previousValue = p.value ∧
        r.type = p.type ∧ r.value = SafeReadBytes env.os p.address p.value.length ∧
        reReadOk env.os p = true) ∧
    (∀ p, p ∈ prevs → reReadOk env.os p = true →
      ∃ r, (r ∈ NextScan env "changed" v prevs ∨ r ∈ NextScan env "unchanged" v prevs) ∧
        r.address = p.address ∧ r.previousValue = p.value) := by
  refine ⟨?_, ?_, ?_⟩
  · intro r hc hu
    obtain ⟨p, hp, he⟩ := List.mem_filterMap.mp hc
    obtain ⟨p2, hp2, he2⟩ := List.mem_filterMap.mp hu
    exact absurd (nextScanEntry_unchanged_val env v p2 r he2)
      (nextScanEntry_changed_val env v p r he)
  · intro r h
    rcases h with h | h
    · obtain ⟨p, hp, he⟩ := List.mem_filterMap.mp h
      obtain ⟨h1, h2, h3, h4, h5⟩ := nextScanEntry_some_shape env "changed" v p r he
      exact ⟨p, hp, h1, h2, h3, h4, h5⟩
    · obtain ⟨p, hp, he⟩ := List.mem_filterMap.mp h
      obtain ⟨h1, h2, h3, h4, h5⟩ := nextScanEntry_some_shape env "unchanged" v p r he
      exact ⟨p, hp, h1, h2, h3, h4, h5⟩
  · intro p hp hOk
    rcases nextScanEntry_total env v p hOk with ⟨r, hr⟩ | ⟨r, hr⟩
    · obtain ⟨h1, h2, _, _, _⟩ := nextScanEntry_some_shape env "changed" v p r hr
      exact ⟨r, Or.inl (List.mem_filterMap.mpr ⟨p, hp, hr⟩), h1, h2⟩
    · obtain ⟨h1, h2, _, _, _⟩ := nextScanEntry_some_shape env "unchanged" v p r hr
      exact ⟨r, Or.inr (List.mem_filterMap.mpr ⟨p, hp, hr⟩), h1, h2⟩

/-- C9 witness: for the one-entry list `[prev9]` over the `osW`
snapshot (memory now differs from the recorded byte), the `changed`
scan emits `res9` and disjointness puts it outside the `unchanged`
scan. -/
theorem C9_changed_unchanged_partition_witness :
    res9 ∉ NextScan env9 "unchanged" "" [prev9] :=
  (C9_changed_unchanged_partition env9 "" [prev9]).1 res9 (by decide)

/-- C10: at a region block of 1 byte and a 4-byte needle the loop bound
`regionData.size() - value.size()` computed on `size_t` underflows to
`2^64 - 3`, so position 0 IS tested (with alignment 1) although
`0 + 4 > 1` — the comparison then reads 3 bytes past the block.  The
claim that no position is tested when the block is shorter than the
needle is what the code should satisfy but does not. -/
theorem C10_scan_loop_bound_underflows :
    scanLoopBound 1 4 = 2 ^ 64 - 3 ∧
    scanPositionTested 1 4 1 0 ∧
    ¬ (0 + 4 ≤ 1) := by
  refine ⟨by decide, ⟨⟨0, rfl⟩, Nat.zero_le _⟩, by omega⟩
